import Mathlib

/-!
Shallow embedding of the reader search gateway
(src/backend/functions/src/cloud-functions/searxng-searcher.ts,
src/backend/functions/src/cloud-functions/crawler.ts,
src/unnamed/part_000 = services/searxng-search.ts).

Conventions of the embedding:
* JavaScript strings that may be `undefined` are modelled as `Option String`;
  JS truthiness of such a field ("present and non-empty") is `optTruthy`.
* Object identity of the per-slot `FormattedPage` objects (used by the
  `Set`/`WeakMap` in `reOrganizeSearchResults`) is modelled by pairing every
  page with its slot index via `List.enum`: each slot holds a distinct object.
* Timestamps are `Int` milliseconds (JS `Date.valueOf`).
-/

/-- JS truthiness of a possibly-undefined string field: defined and non-empty. -/
def optTruthy (o : Option String) : Bool :=
  match o with
  | none => false
  | some s => !s.isEmpty

/-- The fields of a `FormattedPage` record (crawler.ts, interface FormattedPage)
that the search pipeline reads.  `links`/`images` mixins are omitted: the
modelled requests do not set `withImagesSummary`/`withLinksSummary`, and no
claim concerns them. -/
structure FormattedPage where
  title : Option String := none
  description : Option String := none
  url : Option String := none
  content : Option String := none
  publishedTime : Option String := none
  html : Option String := none
  text : Option String := none
  screenshotUrl : Option String := none
  pageshotUrl : Option String := none
  textRepresentation : Option String := none
deriving DecidableEq, Repr

/-- searxng-searcher.ts `pageQualified`: `title && content || screenshotUrl ||
pageshotUrl || text || html`, under JS truthiness. -/
def pageQualified (p : FormattedPage) : Bool :=
  (optTruthy p.title && optTruthy p.content) || optTruthy p.screenshotUrl ||
    optTruthy p.pageshotUrl || optTruthy p.text || optTruthy p.html

/-- searxng-searcher.ts `targetResultCount` field (default 5). -/
def targetResultCount : Nat := 5

/-- searxng-searcher.ts `searchResultsQualified`: every page qualified and the
batch holds at least `count` entries. -/
def searchResultsQualified (results : List FormattedPage) (count : Nat) : Bool :=
  results.all pageQualified && decide (count ≤ results.length)

/-- searxng-searcher.ts `reOrganizeSearchResults`.  `count = 0` models the JS
`count || this.targetResultCount` for both `undefined` and `0`.  The lodash
`partition` is stable, and the `Set` of accepted page objects is modelled by
the set of accepted slot indices (`List.enum` indices stand for object
identity).  The final map only wraps each page with a `toString`, leaving all
fields unchanged, so the model returns the filtered pages themselves. -/
def reOrganizeSearchResults (searchResults : List FormattedPage) (count : Nat) :
    List FormattedPage :=
  let target := if count = 0 then targetResultCount else count
  let indexed := searchResults.enum
  let qualifiedPages := indexed.filter (fun ix => pageQualified ix.2)
  let unqualifiedPages := indexed.filter (fun ix => !pageQualified ix.2)
  let n := target - qualifiedPages.length
  let acceptSet := qualifiedPages ++ unqualifiedPages.take n
  (((indexed.filter (fun ix => acceptSet.any (fun a => a.1 == ix.1))).take target).map
    Prod.snd)

/-- The per-claim spec-side reading of qualification (claim C2's wording):
(title non-empty AND content non-empty) OR screenshotUrl OR pageshotUrl OR
text OR html non-empty. -/
def QualifiedSpec (p : FormattedPage) : Prop :=
  (optTruthy p.title = true ∧ optTruthy p.content = true) ∨
    optTruthy p.screenshotUrl = true ∨ optTruthy p.pageshotUrl = true ∨
    optTruthy p.text = true ∨ optTruthy p.html = true

/-- C6's spec-side reading of the reorganization: accept every qualified page
plus the first `(count - #qualified)` unqualified pages, keep original slot
order, truncate to `count`. -/
def reOrganizeSpec (searchResults : List FormattedPage) (count : Nat) :
    List FormattedPage :=
  let indexed := searchResults.enum
  let unqualifiedPages := indexed.filter (fun ix => !pageQualified ix.2)
  let n := count - (indexed.filter (fun ix => pageQualified ix.2)).length
  (((indexed.filter
      (fun ix => pageQualified ix.2 || decide (ix ∈ unqualifiedPages.take n))).take
        count).map Prod.snd)

/-- searxng-searcher.ts `reasonableDelayMs`. -/
def reasonableDelayMs : Nat := 15000

/-- Duration of the early-return timer (searxng-searcher.ts line 109):
`((crawlerOptions.timeout || 0) * 1000) || this.reasonableDelayMs`, where
`timeoutSec` is the request's timeout in seconds (`none` = not provided). -/
def earlyReturnTimerDurationMs (timeoutSec : Option Nat) : Nat :=
  let t := (timeoutSec.getD 0) * 1000
  if t = 0 then reasonableDelayMs else t

/-- State of the `search` request loop (searxng-searcher.ts lines 98-136).
`timerArmedAt` is the `earlyReturnTimer` variable (never unset once set; the
guard in `setEarlyReturnTimer` reads it), `timerActive` is whether the armed
timeout is still pending (false after `clearTimeout`), `armEvents` records the
emission indices at which `setTimeout` was actually called, and `returned`
holds the batch sent by the qualification gate, if any. -/
structure SearchLoopState where
  lastScrapped : Option (List FormattedPage) := none
  timerArmedAt : Option Nat := none
  timerActive : Bool := false
  armEvents : List Nat := []
  returned : Option (List FormattedPage) := none
deriving DecidableEq, Repr

/-- The state before the first emission. -/
def initialLoopState : SearchLoopState := {}

/-- One iteration of the `for await` loop in `search` on emission `i` carrying
`batch`: record `lastScrapped`; if some slot is qualified, `setEarlyReturnTimer`
(a no-op when the timer variable is already set); if the batch passes
`searchResultsQualified`, clear the timer and send the batch. -/
def searchLoopStep (count : Nat) (st : SearchLoopState) (i : Nat)
    (batch : List FormattedPage) : SearchLoopState :=
  let st1 := { st with lastScrapped := some batch }
  let st2 :=
    if batch.any pageQualified && st1.timerArmedAt.isNone then
      { st1 with timerArmedAt := some i, timerActive := true,
                 armEvents := st1.armEvents ++ [i] }
    else st1
  if searchResultsQualified batch count then
    { st2 with timerActive := false, returned := some batch }
  else st2

/-- Running the request loop over the aggregator's emissions, starting at
emission index `i`; the loop stops as soon as the gate has sent a batch. -/
def runSearchLoop (count : Nat) (st : SearchLoopState) (i : Nat) :
    List (List FormattedPage) → SearchLoopState
  | [] => st
  | b :: rest =>
    let st2 := searchLoopStep count st i b
    if st2.returned.isSome then st2 else runSearchLoop count st2 (i + 1) rest

/-- searxng-searcher.ts `sendResponse` together with the express response state
it reads: `headersSent` is set by `res.send`, and `sendResponse` returns
without sending when it is already set. -/
structure MockResponse where
  headersSent : Bool := false
  bodies : List String := []
deriving DecidableEq, Repr

/-- searxng-searcher.ts lines 20-39. -/
def sendResponse (res : MockResponse) (data : String) : MockResponse :=
  if res.headersSent then res
  else { headersSent := true, bodies := res.bodies ++ [data] }

/-- All response-sending events of one request (timer callback, qualification
gate, end-of-generator send), in the order they happen, each going through
`sendResponse`. -/
def sendAll (res : MockResponse) (ds : List String) : MockResponse :=
  ds.foldl sendResponse res

/-- services/searxng-search.ts `SearXNGSearchResult`, restricted to the fields
the pipeline reads (`url`, `title`, `content`). -/
structure UpstreamResult where
  url : String
  title : String
  content : String
deriving DecidableEq, Repr

/-- services/searxng-search.ts `SearXNGSearchResponse`, restricted to the
fields the cache/pipeline reads. -/
structure SearXNGResponse where
  query : String
  results : List UpstreamResult
deriving DecidableEq, Repr

/-- searxng-searcher.ts `cacheValidMs = 1000 * 3600`. -/
def cacheValidMs : Int := 3600000

/-- searxng-searcher.ts `cacheRetentionMs = 1000 * 3600 * 24 * 7`. -/
def cacheRetentionMs : Int := 604800000

/-- A persisted search-cache record (db/searched `SearchResult`), restricted to
the fields `cachedWebSearch` reads back. -/
structure CacheEntry where
  createdAt : Int
  response : SearXNGResponse
deriving DecidableEq, Repr

/-- The paginated upstream fetch inside `cachedWebSearch`'s try block
(searxng-searcher.ts lines 328-361): page 1, then page 2 when page 1 returned
fewer than `count` results, concatenated and trimmed to `count`.  `up pageno`
is the upstream `SearXNGSearchService.search` call; `.error ()` is a thrown
`DownstreamServiceFailureError`. -/
def fetchUpstream (count : Nat) (up : Nat → Except Unit SearXNGResponse) :
    Except Unit SearXNGResponse := do
  let firstResponse ← up 1
  if firstResponse.results.length < count then
    let secondResponse ← up 2
    pure { firstResponse with
           results := (firstResponse.results ++ secondResponse.results).take count }
  else
    pure { firstResponse with results := firstResponse.results.take count }

/-- searxng-searcher.ts `cachedWebSearch` (lines 301-385), as a function of the
most recent matching cache entry found by the digest lookup (`cache?`, `none`
when the store holds no match), the current time, and the upstream service.
Returns the response (or propagated failure) together with whether the
upstream was consulted.  The fire-and-forget cache write does not affect the
returned value and is not modelled. -/
def cachedWebSearch (noCache : Bool) (cacheFound : Option CacheEntry) (now : Int)
    (count : Nat) (up : Nat → Except Unit SearXNGResponse) :
    Except Unit SearXNGResponse × Bool :=
  match (if noCache then none else cacheFound) with
  | some cache =>
    if cache.createdAt < now - cacheValidMs then
      -- stale: keep the entry as fallback and go upstream
      match fetchUpstream count up with
      | .ok r => (.ok r, true)
      | .error _ => (.ok cache.response, true)
    else
      (.ok cache.response, false)
  | none => (fetchUpstream count up, true)

/-- Outcome of one attempt of `SearXNGSearchService.search`'s axios GET
(src/unnamed/part_000 lines 108-147): a parsed 2xx JSON-object response, a
non-2xx HTTP status (axios throws with `err.response.status`), a network
error (no response), a 2xx body that is not an object, or a constructor
failure while parsing. -/
inductive AttemptOutcome where
  | success (r : SearXNGResponse)
  | httpError (status : Nat)
  | networkError
  | invalidBody
  | parseError
deriving DecidableEq, Repr

/-- The `while (maxTries--)` retry loop of `SearXNGSearchService.search`:
`att i` is the outcome of the i-th attempt (0-based).  Returns the result
(`.error ()` standing for a thrown `DownstreamServiceFailureError`) together
with the number of attempts made.  Only an HTTP 429 leads to a retry (after a
sleep); any other failure, including the in-try throws for a non-object body
or a parse failure (caught by the same catch, which finds no 429 status),
fails immediately. -/
def searchRetryAux (att : Nat → AttemptOutcome) (i : Nat) :
    Nat → Except Unit SearXNGResponse × Nat
  | 0 => (.error (), 0)
  | fuel + 1 =>
    match att i with
    | .success r => (.ok r, 1)
    | .httpError status =>
      if status = 429 then
        let p := searchRetryAux att (i + 1) fuel
        (p.1, p.2 + 1)
      else (.error (), 1)
    | _ => (.error (), 1)

/-- `SearXNGSearchService.search`'s retry loop with its `maxTries = 5`. -/
def searchRetry (att : Nat → AttemptOutcome) : Except Unit SearXNGResponse × Nat :=
  searchRetryAux att 0 5

/-- The immediate (non-retried) result of a single attempt. -/
def immediateResult : AttemptOutcome → Except Unit SearXNGResponse
  | .success r => .ok r
  | _ => .error ()

/-- Whitespace as JS `String.prototype.trim` sees it (restricted to the
characters occurring in Turndown output). -/
def isWsChar (c : Char) : Bool :=
  c = ' ' || c = '\n' || c = '\t' || c = '\r'

/-- Leading-whitespace removal on character lists. -/
def trimLeftChars (l : List Char) : List Char :=
  l.dropWhile isWsChar

/-- Trailing-whitespace removal on character lists. -/
def trimRightChars (l : List Char) : List Char :=
  (trimLeftChars l.reverse).reverse

/-- `s.trim()` on character lists. -/
def trimChars (l : List Char) : List Char :=
  trimRightChars (trimLeftChars l)

/-- `replace(/\n{3,}/g, '\n\n')`: every maximal run of `k` newlines is emitted
as `min k 2` newlines (runs of one or two are untouched, longer runs collapse
to two).  `pending` counts the newlines of the run currently being read. -/
def collapseNlAux (pending : Nat) : List Char → List Char
  | [] => List.replicate (min pending 2) '\n'
  | c :: rest =>
    if c = '\n' then collapseNlAux (pending + 1) rest
    else List.replicate (min pending 2) '\n' ++ c :: collapseNlAux 0 rest

/-- `replace(/\n{3,}/g, '\n\n')` on character lists. -/
def collapseNl (l : List Char) : List Char :=
  collapseNlAux 0 l

/-- The `improved-paragraph` replacement (crawler.ts lines 225-235) applied to
the inner text of a `<p>` element: trim, collapse newline runs of three or
more to two, and terminate with a blank line (empty inner text yields the
empty replacement). -/
def improvedParagraphRule (innerText : List Char) : List Char :=
  let trimmed := trimChars innerText
  if trimmed.isEmpty then []
  else collapseNl trimmed ++ ['\n', '\n']

/-- Modelled from the spec: the Turndown engine itself is a third-party
dependency and not present under src/.  Per section 4.3, running the Markdown
rewriter over a fragment whose root is a single `<p>` element containing plain
text applies rule 5 (improved-paragraph, whose replacement is
`improvedParagraphRule` from crawler.ts) to the element's inner text, which
the engine passes through unchanged. -/
def toMarkdownOnParagraph (s : List Char) : List Char :=
  improvedParagraphRule s

/-- "Already-rendered markdown": a string in the rewriter's canonical output
form, i.e. a fixed point of the two normalizations the paragraph rule applies
(it is trimmed, and contains no run of three or more newlines). -/
def RenderedMarkdown (s : List Char) : Prop :=
  trimChars s = s ∧ collapseNl s = s

/-- `s.trim()` as the kernel-computable character-list operation (the JS trim
removes leading and trailing whitespace; the whitespace classes occurring in
the pipeline's strings are covered by `isWsChar`). -/
def jsTrim (s : String) : String :=
  String.mk (trimChars s.data)

/-- The fields of a `PageSnapshot` (services/puppeteer, opaque producer type)
that `formatSnapshot` reads.  `screenshot`/`pageshot` model presence of the
byte buffers. -/
structure PageSnapshot where
  href : String := ""
  html : String := ""
  text : String := ""
  title : String := ""
  parsedTitle : Option String := none
  parsedContent : Option String := none
  parsedPublishedTime : Option String := none
  screenshot : Bool := false
  screenshotUrl : Option String := none
  pageshot : Bool := false
  pageshotUrl : Option String := none
  maxElemDepth : Nat := 0
  elemCount : Nat := 0
deriving DecidableEq, Repr

/-- Which DOM value a Turndown invocation runs over: the element built from the
full `snapshot.html`, the element built from `snapshot.parsed.content`, or the
raw `snapshot.html` string (the fallback at crawler.ts line 540). -/
inductive TdDoc where
  | htmlElem
  | parsedElem
  | rawHtml
deriving DecidableEq, Repr

/-- One invocation of the Turndown rewriter inside `formatSnapshot`: the
`noRules` option of `getTurndown`, whether the GFM plugin chain and the
`img-generated-alt` rule have been added (they are added only after the
par1/par2 comparison), and the document it runs over. -/
structure TdRun where
  noRules : Bool
  withPlugins : Bool
  doc : TdDoc
deriving DecidableEq, Repr

/-- First character is `<` (JS `contentText.startsWith('<')`). -/
def startsWithLt (s : String) : Bool :=
  match s.data with
  | [] => false
  | c :: _ => c = '<'

/-- Last character is `>` (JS `contentText.endsWith('>')`). -/
def endsWithGt (s : String) : Bool :=
  match s.data.getLast? with
  | none => false
  | some c => c = '>'

/-- Result of the markdown branch of `formatSnapshot`: the final `content`
(after the trailing `(contentText || '').trim()`), the Turndown invocations in
order, whether the par1/par2 readability comparison was performed, and whether
the parsed subtree was chosen as the conversion source. -/
structure MdPathResult where
  content : String
  runs : List TdRun
  comparedParsed : Bool
  usedParsed : Bool
deriving DecidableEq, Repr

/-- The raw-HTML fallback guard (crawler.ts lines 535-538, with JS operator
precedence: `!contentText || (starts && ends) && toBeTurnedToMd !== full`). -/
def mdNeedsRawFallback (c1 : String) (target : TdDoc) : Bool :=
  !(!c1.isEmpty) || (startsWithLt c1 && endsWithGt c1 && decide (target ≠ TdDoc.htmlElem))

/-- The text fallback guard (crawler.ts line 551). -/
def mdNeedsTextFallback (c2 : String) : Bool :=
  !(!c2.isEmpty) || startsWithLt c2 || endsWithGt c2

/-- The tail of the markdown branch (crawler.ts lines 521-556): the main
Turndown run over the chosen document (with plugins), the raw-HTML fallback
when the result is empty or `toBeTurnedToMd` was not the full document and the
result looks like HTML, and the final fallback to `snapshot.text`.  `td` is
the rewriter, modelled total: the try/catch around each run only retries the
same document with a plugin-free service, which does not change which
documents are converted. -/
def mdPathFinish (td : TdRun → String) (noRules : Bool) (target : TdDoc)
    (runs0 : List TdRun) (snap : PageSnapshot) (compared : Bool) : MdPathResult :=
  let mainRun : TdRun := { noRules := noRules, withPlugins := true, doc := target }
  let c1 := jsTrim (td mainRun)
  let runs1 := runs0 ++ [mainRun]
  let fallbackRun : TdRun := { noRules := noRules, withPlugins := true, doc := .rawHtml }
  let needFallback := mdNeedsRawFallback c1 target
  let c2 := if needFallback then td fallbackRun else c1
  let runs2 := if needFallback then runs1 ++ [fallbackRun] else runs1
  let c3 := if mdNeedsTextFallback c2 then snap.text else c2
  { content := jsTrim c3, runs := runs2, comparedParsed := compared,
    usedParsed := decide (target = TdDoc.parsedElem) }

/-- The markdown branch of `formatSnapshot` (crawler.ts lines 403-556), the
branch taken for every mode other than screenshot/pageshot/html/text.
`pdfMode` is initialized to `false` and never set in this source (the PDF
extractor is disabled), so the PDF arm is unreachable and elided.  The float
comparison `par2.length >= 0.3 * par1.length` is modelled exactly over the
rationals as `3 * |par1| <= 10 * |par2|` (the double rounding of `0.3 * n`
cannot cross an integer for any realistic length). -/
def markdownPathContent (td : TdRun → String) (mode : String) (snap : PageSnapshot) :
    MdPathResult :=
  if snap.maxElemDepth > 256 || snap.elemCount > 70000 then
    -- degrade to text to protect the server
    { content := jsTrim snap.text, runs := [], comparedParsed := false,
      usedParsed := false }
  else
    if mode ≠ "markdown" ∧ optTruthy snap.parsedContent then
      let par1Run : TdRun := { noRules := false, withPlugins := false, doc := .htmlElem }
      let par2Run : TdRun := { noRules := false, withPlugins := false, doc := .parsedElem }
      let par1 := td par1Run
      let par2 := td par2Run
      if 3 * par1.length ≤ 10 * par2.length then
        -- Readability did its job: switch to a noRules service over the parsed subtree
        mdPathFinish td true .parsedElem [par1Run, par2Run] snap true
      else
        mdPathFinish td false .htmlElem [par1Run, par2Run] snap true
    else
      mdPathFinish td false .htmlElem [] snap false

/-- JS `a || b` on strings (returns `b` when `a` is empty). -/
def jsOr (a b : String) : String :=
  if a.isEmpty then b else a

/-- Interpolation of a possibly-undefined string into a JS template literal. -/
def jsInterp (o : Option String) : String :=
  o.getD "undefined"

/-- The non-markdown string form of a formatted page (crawler.ts lines
595-601), with no images/links mixins (the corresponding request flags are
unset in the modelled requests). -/
def formattedPageTemplate (title url : String) (publishedTime : Option String)
    (content : String) : String :=
  let mixins := match publishedTime with
    | some t => "\nPublished Time: " ++ t ++ "\n"
    | none => ""
  "Title: " ++ title ++ "\n\nURL Source: " ++ url ++ "\n" ++ mixins ++
    "\nMarkdown Content:\n" ++ content ++ "\n"

/-- crawler.ts `formatSnapshot` (lines 334-624), at the level of the record
fields of the returned `FormattedPage`.  `host`/`uuid` stand for the request
host and the random file name used when screenshot bytes are persisted;
`nominalUrl` is the already-stringified nominal URL. -/
def formatSnapshotFields (td : TdRun → String) (host uuid : String) (mode : String)
    (snap : PageSnapshot) (nominalUrl : Option String) : FormattedPage :=
  if mode = "screenshot" then
    let ssUrl :=
      if snap.screenshot && !(optTruthy snap.screenshotUrl) then
        some ("http://" ++ host ++ "/instant-screenshots/screenshot-" ++ uuid ++ ".png")
      else snap.screenshotUrl
    { screenshotUrl := ssUrl, textRepresentation := some (jsInterp ssUrl ++ "\n") }
  else if mode = "pageshot" then
    let psUrl :=
      if snap.pageshot && !(optTruthy snap.pageshotUrl) then
        some ("http://" ++ host ++ "/instant-screenshots/pageshot-" ++ uuid ++ ".png")
      else snap.pageshotUrl
    { html := some snap.html, pageshotUrl := psUrl,
      textRepresentation := some (jsInterp psUrl ++ "\n") }
  else if mode = "html" then
    { html := some snap.html, textRepresentation := some snap.html }
  else if mode = "text" then
    { text := some snap.text, textRepresentation := some snap.text }
  else
    let md := markdownPathContent td mode snap
    let title := jsTrim (jsOr (jsOr (snap.parsedTitle.getD "") snap.title) "")
    let url := match nominalUrl with
      | some u => u
      | none => jsTrim snap.href
    let publishedTime := match snap.parsedPublishedTime with
      | some t => if t.isEmpty then none else some t
      | none => none
    let textRep :=
      if mode = "markdown" then md.content
      else formattedPageTemplate title url publishedTime md.content
    { title := some title, url := some url, content := some md.content,
      publishedTime := publishedTime, textRepresentation := some textRep }

/-- Slot mapping inside `fetchSearchResults` (searxng-searcher.ts lines
177-206): a nil snapshot becomes a stub built from the upstream result; a
present snapshot is formatted (`formatSnapshot` with the slot's URL as nominal
URL), then `title ??=` the upstream title and `description =` the upstream
snippet.  The `WeakMap` cache only avoids re-formatting the same snapshot
object and is invisible at the value level.  URL parsing/serialization
(`new URL(x.url)` and `.toString()`) is modelled as the identity on the URL
string. -/
def mapSlot (td : TdRun → String) (host uuid : String) (mode : String)
    (upstream : UpstreamResult) (snap : Option PageSnapshot) : FormattedPage :=
  match snap with
  | none =>
    { url := some upstream.url, title := some upstream.title,
      description := some upstream.content,
      content := if mode = "html" || mode = "text" || mode = "screenshot"
                 then none else some "" }
  | some x =>
    let f := formatSnapshotFields td host uuid mode x (some upstream.url)
    { f with
      title := match f.title with
        | none => some upstream.title
        | some t => some t,
      description := some upstream.content }

/-- One emission of `fetchSearchResults`: map every slot, then reorganize. -/
def emittedBatch (td : TdRun → String) (host uuid : String) (mode : String)
    (upstreamResults : List UpstreamResult) (snaps : List (Option PageSnapshot))
    (count : Nat) : List FormattedPage :=
  reOrganizeSearchResults
    (List.zipWith (fun r s => mapSlot td host uuid mode r s) upstreamResults snaps)
    count


/-! ## Helper lemmas -/

theorem pageQualified_iff (p : FormattedPage) : pageQualified p = true ↔ QualifiedSpec p := by
  simp only [pageQualified, QualifiedSpec, Bool.or_eq_true, Bool.and_eq_true]
  tauto

theorem searchResultsQualified_iff (batch : List FormattedPage) (count : Nat) :
    searchResultsQualified batch count = true ↔
      (∀ p ∈ batch, QualifiedSpec p) ∧ count ≤ batch.length := by
  simp only [searchResultsQualified, Bool.and_eq_true, List.all_eq_true, decide_eq_true_eq]
  constructor
  · rintro ⟨h1, h2⟩
    exact ⟨fun p hp => (pageQualified_iff p).mp (h1 p hp), h2⟩
  · rintro ⟨h1, h2⟩
    exact ⟨fun p hp => (pageQualified_iff p).mpr (h1 p hp), h2⟩

theorem searchRetryAux_attempts_le (att : Nat → AttemptOutcome) :
    ∀ (fuel i : Nat), (searchRetryAux att i fuel).2 ≤ fuel := by
  intro fuel
  induction fuel with
  | zero => intro i; simp [searchRetryAux]
  | succ n ih =>
    intro i
    simp only [searchRetryAux]
    cases h : att i with
    | success r => simp
    | httpError status =>
      by_cases h429 : status = 429
      · simpa [h429] using Nat.succ_le_succ (ih (i + 1))
      · simp [h429]
    | networkError => simp
    | invalidBody => simp
    | parseError => simp

theorem searchRetryAux_skip429 (att : Nat → AttemptOutcome) :
    ∀ (k i fuel : Nat), (∀ j, j < k → att (i + j) = .httpError 429) → k ≤ fuel →
      searchRetryAux att i fuel =
        ((searchRetryAux att (i + k) (fuel - k)).1,
         (searchRetryAux att (i + k) (fuel - k)).2 + k) := by
  intro k
  induction k with
  | zero => intro i fuel _ _; simp
  | succ m ih =>
    intro i fuel hall hle
    obtain ⟨f, rfl⟩ : ∃ f, fuel = f + 1 := ⟨fuel - 1, by omega⟩
    have h0 : att i = .httpError 429 := by simpa using hall 0 (by omega)
    have ih2 := ih (i + 1) f
      (fun j hj => by
        have h := hall (j + 1) (by omega)
        rw [show i + 1 + j = i + j + 1 by omega]
        exact h)
      (by omega)
    simp only [searchRetryAux, h0, ih2, if_true]
    have h1 : i + 1 + m = i + (m + 1) := by omega
    have h2 : f - m = f + 1 - (m + 1) := by omega
    rw [h1, h2]
    simp [Nat.add_assoc]

/-! ## Sample values used by witnesses and counterexamples -/

/-- A page qualified through non-empty `text`. -/
def samplePageQ : FormattedPage := { text := some "t" }

/-- A page with all fields undefined (unqualified). -/
def samplePageU : FormattedPage := {}

/-- A cache entry created at time 0. -/
def sampleEntry : CacheEntry :=
  { createdAt := 0, response := { query := "q", results := [] } }

/-- An attempt sequence: HTTP 429, then a network error. -/
def sampleAttempts : Nat → AttemptOutcome := fun n =>
  if n = 0 then .httpError 429 else .networkError

/-- Unfolding of `cachedWebSearch` with `noCache = false` and a found entry. -/
theorem cachedWebSearch_some_eq (c : CacheEntry) (now : Int) (count : Nat)
    (up : Nat → Except Unit SearXNGResponse) :
    cachedWebSearch false (some c) now count up =
      if c.createdAt < now - cacheValidMs then
        (match fetchUpstream count up with
         | .ok r => (.ok r, true)
         | .error _ => (.ok c.response, true))
      else (.ok c.response, false) := rfl

/-! ## Claim theorems -/

/-- C2: an emission of the search pipeline causes the gate to cancel the
early-return timer and send the batch exactly when every page of the batch is
qualified — qualified meaning (title non-empty AND content non-empty) OR
screenshotUrl OR pageshotUrl OR text OR html non-empty — and the batch has at
least `count` entries; otherwise iteration continues (nothing is returned by
this step). -/
theorem searchLoop_gate_iff (count : Nat) (st : SearchLoopState) (i : Nat)
    (batch : List FormattedPage) (h : st.returned = none) :
    (((searchLoopStep count st i batch).returned = some batch ∧
       (searchLoopStep count st i batch).timerActive = false) ↔
      ((∀ p ∈ batch, QualifiedSpec p) ∧ count ≤ batch.length)) ∧
    ((¬ ((∀ p ∈ batch, QualifiedSpec p) ∧ count ≤ batch.length)) →
      (searchLoopStep count st i batch).returned = none) := by
  by_cases hg : searchResultsQualified batch count = true
  · have hspec := (searchResultsQualified_iff batch count).mp hg
    have hstep : (searchLoopStep count st i batch).returned = some batch ∧
        (searchLoopStep count st i batch).timerActive = false := by
      simp [searchLoopStep, hg]
    exact ⟨iff_of_true hstep hspec, fun hn => absurd hspec hn⟩
  · have hspec : ¬ ((∀ p ∈ batch, QualifiedSpec p) ∧ count ≤ batch.length) :=
      fun hc => hg ((searchResultsQualified_iff batch count).mpr hc)
    constructor
    · simp only [searchLoopStep, hg, if_false, Bool.false_eq_true]
      constructor
      · intro hc
        exfalso
        rcases hc with ⟨hc1, _⟩
        split at hc1 <;> simp_all
      · intro hc; exact absurd hc hspec
    · intro _
      simp only [searchLoopStep, hg, if_false, Bool.false_eq_true]
      split <;> simp_all

/-- Witness for C2 at a concrete qualified batch. -/
theorem searchLoop_gate_iff_witness :
    (((searchLoopStep 1 initialLoopState 0 [samplePageQ]).returned = some [samplePageQ] ∧
       (searchLoopStep 1 initialLoopState 0 [samplePageQ]).timerActive = false) ↔
      ((∀ p ∈ [samplePageQ], QualifiedSpec p) ∧ 1 ≤ [samplePageQ].length)) ∧
    ((¬ ((∀ p ∈ [samplePageQ], QualifiedSpec p) ∧ 1 ≤ [samplePageQ].length)) →
      (searchLoopStep 1 initialLoopState 0 [samplePageQ]).returned = none) :=
  searchLoop_gate_iff 1 initialLoopState 0 [samplePageQ] rfl

/-- C3: `cachedWebSearch` with `noCache = false` returns the found cache
entry's response without consulting upstream when the entry is fresh
(age < 1 hour); when the upstream fetch fails and a matching (stale) entry was
found, it returns that entry's response instead of propagating; and when no
entry was found, the upstream failure propagates. -/
theorem cachedWebSearch_cache_policy (c : CacheEntry) (now : Int) (count : Nat)
    (up : Nat → Except Unit SearXNGResponse) :
    (now - c.createdAt < cacheValidMs →
      cachedWebSearch false (some c) now count up = (.ok c.response, false)) ∧
    (cacheValidMs ≤ now - c.createdAt → fetchUpstream count up = .error () →
      (cachedWebSearch false (some c) now count up).1 = .ok c.response) ∧
    (fetchUpstream count up = .error () →
      (cachedWebSearch false none now count up).1 = .error ()) := by
  refine ⟨?_, ?_, ?_⟩
  · intro hfresh
    have hnot : ¬ (c.createdAt < now - cacheValidMs) := by omega
    simp [cachedWebSearch, hnot]
  · intro _ hup
    by_cases hc : c.createdAt < now - cacheValidMs
    · simp [cachedWebSearch, hc, hup]
    · simp [cachedWebSearch, hc]
  · intro hup
    simp [cachedWebSearch, hup]

/-- Witness for C3 at a concrete fresh entry, stale entry and empty lookup. -/
theorem cachedWebSearch_cache_policy_witness :
    cachedWebSearch false (some sampleEntry) 1000 5 (fun _ => .error ()) =
      (.ok sampleEntry.response, false) ∧
    (cachedWebSearch false (some sampleEntry) 7200000 5 (fun _ => .error ())).1 =
      .ok sampleEntry.response ∧
    (cachedWebSearch false none 1000 5 (fun _ => .error ())).1 = .error () := by
  refine ⟨?_, ?_, ?_⟩
  · exact (cachedWebSearch_cache_policy sampleEntry 1000 5 (fun _ => .error ())).1
      (by decide)
  · exact (cachedWebSearch_cache_policy sampleEntry 7200000 5 (fun _ => .error ())).2.1
      (by decide) rfl
  · exact (cachedWebSearch_cache_policy sampleEntry 1000 5 (fun _ => .error ())).2.2 rfl

/-- Counterexample to C4: a cache entry whose age (14 days) is at least
`cacheRetentionMs` (7 days) but which is still present in the store at lookup
time is returned as the stale fallback when the upstream fetch fails — the
lookup applies no retention filter. -/
theorem cachedWebSearch_returns_expired_counterexample :
    cacheRetentionMs ≤ (1209600000 : Int) - sampleEntry.createdAt ∧
    (cachedWebSearch false (some sampleEntry) 1209600000 5 (fun _ => .error ())).1 =
      .ok sampleEntry.response := by
  refine ⟨by decide, rfl⟩

/-- C4 amended: an expired entry is never returned as a fresh hit — whenever
`cachedWebSearch` answers without consulting upstream, the returned response
is that of a found entry whose age is at most `cacheValidMs`, hence below
`cacheRetentionMs`.  (Exclusion of expired entries from the stale-fallback
path relies on the external TTL sweeper that deletes them at `expireAt`; the
lookup itself applies no age filter, see the counterexample.) -/
theorem cachedWebSearch_fresh_hit_never_expired (noCache : Bool)
    (cacheFound : Option CacheEntry) (now : Int) (count : Nat)
    (up : Nat → Except Unit SearXNGResponse) (r : SearXNGResponse)
    (h : cachedWebSearch noCache cacheFound now count up = (.ok r, false)) :
    ∃ c, cacheFound = some c ∧ r = c.response ∧
      now - c.createdAt ≤ cacheValidMs ∧ now - c.createdAt < cacheRetentionMs := by
  cases noCache with
  | true => simp [cachedWebSearch] at h
  | false =>
    cases cacheFound with
    | none => simp [cachedWebSearch] at h
    | some c =>
      by_cases hc : c.createdAt < now - cacheValidMs
      · exfalso
        have hsnd := congrArg Prod.snd h
        rw [cachedWebSearch_some_eq, if_pos hc] at hsnd
        cases hup : fetchUpstream count up with
        | ok v => rw [hup] at hsnd; simp at hsnd
        | error e => rw [hup] at hsnd; simp at hsnd
      · refine ⟨c, rfl, ?_, by omega, ?_⟩
        · have hfst := congrArg Prod.fst h
          rw [cachedWebSearch_some_eq, if_neg hc] at hfst
          simpa using hfst.symm
        · have hlt : (cacheValidMs : Int) < cacheRetentionMs := by decide
          omega

/-- Witness for C4's amended theorem at a concrete fresh hit. -/
theorem cachedWebSearch_fresh_hit_never_expired_witness :
    ∃ c, some sampleEntry = some c ∧ sampleEntry.response = c.response ∧
      (1000 : Int) - c.createdAt ≤ cacheValidMs ∧
      (1000 : Int) - c.createdAt < cacheRetentionMs :=
  cachedWebSearch_fresh_hit_never_expired false (some sampleEntry) 1000 5
    (fun _ => .error ()) sampleEntry.response rfl

/-- C5: the upstream search client makes at most 5 attempts; when the first
`i` attempts all failed with HTTP 429 and attempt `i` (within the 5) does not,
the call ends right there — with the parsed response on success and with a
`DownstreamFailure` on any other failure (non-2xx status, network error,
non-object body, parse error) — having made exactly `i + 1` attempts; and when
all 5 attempts fail with 429, the call fails with a `DownstreamFailure` after
5 attempts. -/
theorem searchRetry_retryPolicy (att : Nat → AttemptOutcome) :
    (searchRetry att).2 ≤ 5 ∧
    (∀ i, i < 5 → (∀ j, j < i → att j = .httpError 429) →
      att i ≠ .httpError 429 →
      searchRetry att = (immediateResult (att i), i + 1)) ∧
    ((∀ j, j < 5 → att j = .httpError 429) → searchRetry att = (.error (), 5)) := by
  refine ⟨searchRetryAux_attempts_le att 5 0, ?_, ?_⟩
  · intro i hi hall hni
    have hs := searchRetryAux_skip429 att i 0 5
      (fun j hj => by simpa using hall j hj) (by omega)
    obtain ⟨m, hm⟩ : ∃ m, 5 - i = m + 1 := ⟨4 - i, by omega⟩
    rw [searchRetry, hs, hm]
    have hzi : 0 + i = i := by omega
    rw [hzi]
    cases h : att i with
    | success r => simp [searchRetryAux, h, immediateResult, Nat.add_comm]
    | httpError status =>
      have hs429 : ¬ (status = 429) := fun he => hni (he ▸ h)
      simp [searchRetryAux, h, hs429, immediateResult, Nat.add_comm]
    | networkError => simp [searchRetryAux, h, immediateResult, Nat.add_comm]
    | invalidBody => simp [searchRetryAux, h, immediateResult, Nat.add_comm]
    | parseError => simp [searchRetryAux, h, immediateResult, Nat.add_comm]
  · intro hall
    have hs := searchRetryAux_skip429 att 5 0 5
      (fun j hj => by simpa using hall j hj) (by omega)
    rw [searchRetry, hs]
    simp [searchRetryAux]

/-- Witness for C5: one 429 (retried), then a network error (immediate
failure) — two attempts in total. -/
theorem searchRetry_retryPolicy_witness :
    searchRetry sampleAttempts = (.error (), 2) := by
  have h := (searchRetry_retryPolicy sampleAttempts).2.1 1 (by omega)
    (fun j hj => by
      have hj0 : j = 0 := by omega
      subst hj0; rfl)
    (by decide)
  simpa [sampleAttempts, immediateResult] using h

/-- C10: at most one response body is ever sent for a request: `sendResponse`
is a no-op on a response whose headers have been sent, and any sequence of
send events (early-return timer firing, qualification gate, end-of-generator
send) through `sendResponse` adds at most one body to a response. -/
theorem sendResponse_at_most_once :
    (∀ (bodies : List String) (d : String),
      sendResponse { headersSent := true, bodies := bodies } d =
        { headersSent := true, bodies := bodies }) ∧
    (∀ (res : MockResponse) (ds : List String),
      (sendAll res ds).bodies.length ≤
        res.bodies.length + (if res.headersSent then 0 else 1)) := by
  constructor
  · intro bodies d; simp [sendResponse]
  · intro res ds
    induction ds generalizing res with
    | nil => simp only [sendAll, List.foldl_nil]; split <;> omega
    | cons d rest ih =>
      have hstep : sendAll res (d :: rest) = sendAll (sendResponse res d) rest := rfl
      rw [hstep]
      by_cases hres : res.headersSent
      · have h1 : sendResponse res d = res := by simp [sendResponse, hres]
        rw [h1]
        exact ih res
      · have h1 : sendResponse res d =
            { headersSent := true, bodies := res.bodies ++ [d] } := by
          simp [sendResponse, hres]
        rw [h1, if_neg hres]
        have h2 := ih { headersSent := true, bodies := res.bodies ++ [d] }
        simp at h2
        omega

/-- Slot indices in `List.enum` determine the element: the model of object
identity used for the accept set of `reOrganizeSearchResults`. -/
theorem enum_key_inj {α : Type} {l : List α} {a b : Nat × α} (ha : a ∈ l.enum)
    (hb : b ∈ l.enum) (hk : a.1 = b.1) : a = b := by
  rw [List.mem_enum_iff_getElem?] at ha hb
  rw [Prod.ext_iff]
  refine ⟨hk, ?_⟩
  have hsome : some a.2 = some b.2 := by rw [← ha, ← hb, hk]
  simpa using hsome

/-- The accept test of the implementation (membership of the slot index in the
accept set) agrees, on every enumerated slot, with the spec-side accept test
(qualified, or among the first `n` unqualified slots). -/
theorem reOrganize_accept_eq (pages : List FormattedPage) (n : Nat)
    (ix : Nat × FormattedPage) (hix : ix ∈ pages.enum) :
    ((pages.enum.filter (fun p => pageQualified p.2) ++
      (pages.enum.filter (fun p => !pageQualified p.2)).take n).any
        (fun a => a.1 == ix.1)) =
    (pageQualified ix.2 ||
      decide (ix ∈ (pages.enum.filter (fun p => !pageQualified p.2)).take n)) := by
  rw [Bool.eq_iff_iff]
  simp only [List.any_eq_true, List.mem_append, beq_iff_eq, Bool.or_eq_true,
    decide_eq_true_eq]
  constructor
  · rintro ⟨a, ha, hak⟩
    have haE : a ∈ pages.enum := by
      rcases ha with h | h
      · exact List.mem_of_mem_filter h
      · exact List.mem_of_mem_filter (List.mem_of_mem_take h)
    have heq : a = ix := enum_key_inj haE hix hak
    subst heq
    rcases ha with h | h
    · exact Or.inl (List.mem_filter.mp h).2
    · exact Or.inr h
  · intro h
    rcases h with h | h
    · exact ⟨ix, Or.inl (List.mem_filter.mpr ⟨hix, h⟩), rfl⟩
    · exact ⟨ix, Or.inr h, rfl⟩

/-- C6 amended: for every page list and every count `k ≥ 1` (the JS
`count || targetResultCount` replaces `0`/`undefined` by the default 5, see
the counterexample), the reorganization equals its spec-side description —
stable qualified/unqualified partition, all qualified pages accepted plus the
first `k - #qualified` unqualified ones in slot order, original slot order
preserved, truncated to `k` — and in particular returns at most `k` pages and
a subsequence of the input. -/
theorem reOrganize_matches_spec (pages : List FormattedPage) (k : Nat) (hk : 1 ≤ k) :
    reOrganizeSearchResults pages k = reOrganizeSpec pages k ∧
    (reOrganizeSearchResults pages k).length ≤ k ∧
    (reOrganizeSearchResults pages k).Sublist pages := by
  have hk0 : ¬ (k = 0) := by omega
  have heq : reOrganizeSearchResults pages k = reOrganizeSpec pages k := by
    unfold reOrganizeSearchResults reOrganizeSpec
    simp only [if_neg hk0]
    exact congrArg (fun l => (l.take k).map Prod.snd)
      (List.filter_congr (fun ix hix => reOrganize_accept_eq pages _ ix hix))
  refine ⟨heq, ?_, ?_⟩
  · unfold reOrganizeSearchResults
    simp only [if_neg hk0, List.length_map, List.length_take]
    omega
  · unfold reOrganizeSearchResults
    simp only [if_neg hk0]
    have h1 : ∀ (p : Nat × FormattedPage → Bool),
        (((pages.enum.filter p).take k).map Prod.snd).Sublist pages := by
      intro p
      have h2 := ((List.take_sublist k (pages.enum.filter p)).trans
        (List.filter_sublist pages.enum)).map Prod.snd
      rwa [List.enum_map_snd] at h2
    exact h1 _

/-- Witness for C6's amended theorem at a concrete two-page list. -/
theorem reOrganize_matches_spec_witness :
    reOrganizeSearchResults [samplePageU, samplePageQ] 1 =
      reOrganizeSpec [samplePageU, samplePageQ] 1 ∧
    (reOrganizeSearchResults [samplePageU, samplePageQ] 1).length ≤ 1 ∧
    (reOrganizeSearchResults [samplePageU, samplePageQ] 1).Sublist
      [samplePageU, samplePageQ] :=
  reOrganize_matches_spec [samplePageU, samplePageQ] 1 (by omega)

/-- Counterexample to C6 as stated: with `count = 0` the JS
`count || this.targetResultCount` falls back to the default 5, so the result
is not truncated to at most 0 entries. -/
theorem reOrganize_count_zero_counterexample :
    (reOrganizeSearchResults [samplePageQ] 0).length = 1 ∧
    ¬ ((reOrganizeSearchResults [samplePageQ] 0).length ≤ 0) := by
  refine ⟨rfl, by decide⟩

/-- When at most `count` slots are present (the pipeline slices the upstream
results to `count` before scraping), every slot is accepted and the
reorganization is the identity. -/
theorem reOrganize_of_length_le (pages : List FormattedPage) (k : Nat) (hk : 1 ≤ k)
    (hlen : pages.length ≤ k) : reOrganizeSearchResults pages k = pages := by
  have hk0 : ¬ (k = 0) := by omega
  have hpart := List.length_eq_length_filter_add
    (l := pages.enum) (fun p => pageQualified p.2)
  have hUlen : (pages.enum.filter (fun p => !pageQualified p.2)).length ≤
      k - (pages.enum.filter (fun p => pageQualified p.2)).length := by
    have := List.enum_length (l := pages)
    omega
  unfold reOrganizeSearchResults
  simp only [if_neg hk0]
  rw [List.take_of_length_le hUlen]
  have hall : ∀ ix ∈ pages.enum,
      ((pages.enum.filter (fun p => pageQualified p.2) ++
        pages.enum.filter (fun p => !pageQualified p.2)).any
          (fun a => a.1 == ix.1)) = true := by
    intro ix hix
    rw [List.any_eq_true]
    by_cases hq : pageQualified ix.2
    · exact ⟨ix, List.mem_append.mpr (Or.inl (List.mem_filter.mpr ⟨hix, hq⟩)),
        by simp⟩
    · exact ⟨ix, List.mem_append.mpr (Or.inr (List.mem_filter.mpr
        ⟨hix, by simp [hq]⟩)), by simp⟩
  rw [List.filter_eq_self.mpr hall,
    List.take_of_length_le (by rw [List.enum_length]; exact hlen),
    List.enum_map_snd]

/-- In the markdown mode, every mapped slot carries the upstream slot URL:
stubs copy it directly, and formatted snapshots get it as the nominal URL
passed to `formatSnapshot`. -/
theorem mapSlot_markdown_url (td : TdRun → String) (host uuid : String)
    (r : UpstreamResult) (snap : Option PageSnapshot) :
    (mapSlot td host uuid "markdown" r snap).url = some r.url := by
  cases snap with
  | none => rfl
  | some x => rfl

/-- Mapping the slots of equal-length lists yields one page per upstream
result, carrying its URL, in slot order. -/
theorem zipWith_mapSlot_urls (td : TdRun → String) (host uuid : String) :
    ∀ (rs : List UpstreamResult) (snaps : List (Option PageSnapshot)),
      snaps.length = rs.length →
      (List.zipWith (fun r s => mapSlot td host uuid "markdown" r s) rs snaps).map
          (fun p => p.url) =
        rs.map (fun r => some r.url) := by
  intro rs
  induction rs with
  | nil => intro snaps _; simp
  | cons r rest ih =>
    intro snaps hlen
    cases snaps with
    | nil => simp at hlen
    | cons s srest =>
      simp only [List.zipWith_cons_cons, List.map_cons, mapSlot_markdown_url]
      rw [ih srest (by simpa using hlen)]

/-- C7 amended: in markdown mode (the default formatter path), slot index is
preserved end to end — for every emitted batch built from at most `count`
upstream results (the pipeline slices to `count` before scraping) with one
snapshot slot per result, the URL at output position `i` equals the URL at
the i-th upstream result position.  (In html/text/screenshot/pageshot modes
the formatter emits no `url` field for successfully formatted slots, see the
counterexample; slot order is still preserved.) -/
theorem emittedBatch_markdown_slot_urls (td : TdRun → String) (host uuid : String)
    (rs : List UpstreamResult) (snaps : List (Option PageSnapshot)) (count : Nat)
    (hcount : 1 ≤ count) (hle : rs.length ≤ count) (hlen : snaps.length = rs.length) :
    (emittedBatch td host uuid "markdown" rs snaps count).map (fun p => p.url) =
      rs.map (fun r => some r.url) := by
  unfold emittedBatch
  have hzlen : (List.zipWith (fun r s => mapSlot td host uuid "markdown" r s)
      rs snaps).length ≤ count := by
    rw [List.length_zipWith]
    omega
  rw [reOrganize_of_length_le _ count hcount hzlen]
  exact zipWith_mapSlot_urls td host uuid rs snaps hlen

/-- A snapshot whose html/text are present (used by C7's scenarios). -/
def sampleSnapshotHtml : PageSnapshot :=
  { href := "http://a.example/", html := "<p>x</p>", text := "x", title := "A" }

/-- An upstream result for the same URL. -/
def sampleUpstream : UpstreamResult :=
  { url := "http://a.example/", title := "A", content := "snippet" }

/-- A rewriter model returning a fixed markdown string. -/
def tdConst : TdRun → String := fun _ => "converted"

/-- Witness for C7's amended theorem at a concrete one-slot batch. -/
theorem emittedBatch_markdown_slot_urls_witness :
    (emittedBatch tdConst "h" "u" "markdown" [sampleUpstream] [some sampleSnapshotHtml]
      1).map (fun p => p.url) = [sampleUpstream].map (fun r => some r.url) :=
  emittedBatch_markdown_slot_urls tdConst "h" "u" [sampleUpstream]
    [some sampleSnapshotHtml] 1 (by omega) (by simp) rfl

/-- Counterexample to C7 as stated: in html mode a successfully formatted slot
carries no `url` field at all, so the URL at output position 0 is not the
upstream URL at position 0. -/
theorem emittedBatch_html_url_counterexample :
    (emittedBatch tdConst "h" "u" "html" [sampleUpstream] [some sampleSnapshotHtml]
      1).map (fun p => p.url) = [none] ∧
    sampleUpstream.url = "http://a.example/" ∧
    (none : Option String) ≠ some sampleUpstream.url := by
  refine ⟨rfl, rfl, by decide⟩

/-- Index of the first emission in which some slot is qualified. -/
def firstQualifiedIdx (l : List (List FormattedPage)) : Option Nat :=
  match l with
  | [] => none
  | b :: rest =>
    if b.any pageQualified then some 0 else (firstQualifiedIdx rest).map (· + 1)

theorem firstQualifiedIdx_spec :
    ∀ (l : List (List FormattedPage)) (j : Nat), firstQualifiedIdx l = some j →
      ∃ b, l[j]? = some b ∧ b.any pageQualified = true ∧
        ∀ i b2, i < j → l[i]? = some b2 → b2.any pageQualified = false := by
  intro l
  induction l with
  | nil => intro j h; simp [firstQualifiedIdx] at h
  | cons b rest ih =>
    intro j h
    by_cases hb : b.any pageQualified
    · have hfq : firstQualifiedIdx (b :: rest) =
          if b.any pageQualified then some 0
          else (firstQualifiedIdx rest).map (· + 1) := rfl
      rw [hfq, if_pos hb, Option.some_inj] at h
      subst h
      exact ⟨b, by simp, hb, fun i b2 hi _ => absurd hi (Nat.not_lt_zero i)⟩
    · have hfq : firstQualifiedIdx (b :: rest) =
          if b.any pageQualified then some 0
          else (firstQualifiedIdx rest).map (· + 1) := rfl
      rw [hfq, if_neg (by simp [hb])] at h
      cases hr : firstQualifiedIdx rest with
      | none => rw [hr] at h; simp at h
      | some j2 =>
      rw [hr] at h
      simp at h
      subst h
      obtain ⟨b2, hget, hq, hmin⟩ := ih j2 hr
      refine ⟨b2, by simpa using hget, hq, ?_⟩
      intro i b3 hi hgeti
      cases i with
      | zero =>
        have hb3 : b3 = b := by simpa using hgeti.symm
        subst hb3
        exact Bool.not_eq_true _ ▸ by simpa using hb
      | succ m => exact hmin m b3 (by omega) (by simpa using hgeti)

theorem searchLoopStep_armed_stable (count : Nat) (st : SearchLoopState) (i a : Nat)
    (batch : List FormattedPage) (h : st.timerArmedAt = some a) :
    (searchLoopStep count st i batch).timerArmedAt = some a ∧
    (searchLoopStep count st i batch).armEvents = st.armEvents := by
  simp only [searchLoopStep, h, Option.isNone_some, Bool.and_false,
    Bool.false_eq_true, if_false]
  split <;> simp [h]

theorem runSearchLoop_armed_stable (count : Nat) :
    ∀ (l : List (List FormattedPage)) (st : SearchLoopState) (i a : Nat),
      st.timerArmedAt = some a →
      (runSearchLoop count st i l).armEvents = st.armEvents := by
  intro l
  induction l with
  | nil => intro st i a h; rfl
  | cons b rest ih =>
    intro st i a h
    have hs := searchLoopStep_armed_stable count st i a b h
    simp only [runSearchLoop]
    split
    · exact hs.2
    · rw [ih _ (i + 1) a hs.1, hs.2]

theorem runSearchLoop_armEvents_eq (count : Nat) (hcount : 1 ≤ count) :
    ∀ (l : List (List FormattedPage)) (st : SearchLoopState) (i : Nat),
      st.timerArmedAt = none → st.armEvents = [] → st.returned = none →
      (runSearchLoop count st i l).armEvents =
        (match firstQualifiedIdx l with
         | none => []
         | some j => [i + j]) := by
  intro l
  induction l with
  | nil =>
    intro st i h1 h2 h3
    simpa [runSearchLoop, firstQualifiedIdx] using h2
  | cons b rest ih =>
    intro st i h1 h2 h3
    by_cases hb : b.any pageQualified
    · have hstep : (searchLoopStep count st i b).armEvents = [i] ∧
          (searchLoopStep count st i b).timerArmedAt = some i := by
        simp only [searchLoopStep, h1, hb, Option.isNone_none, Bool.and_self, if_true]
        split <;> simp [h2]
      simp only [runSearchLoop]
      have hres : (if (searchLoopStep count st i b).returned.isSome
          then searchLoopStep count st i b
          else runSearchLoop count (searchLoopStep count st i b) (i + 1) rest).armEvents
          = [i] := by
        split
        · exact hstep.1
        · rw [runSearchLoop_armed_stable count rest _ (i + 1) i hstep.2]
          exact hstep.1
      rw [hres]
      simp [firstQualifiedIdx, hb]
    · have hgate : searchResultsQualified b count = false := by
        cases hq : searchResultsQualified b count
        · rfl
        · exfalso
          obtain ⟨hall, hlen⟩ := (searchResultsQualified_iff b count).mp hq
          cases b with
          | nil => simp at hlen; omega
          | cons p ps =>
            have hp : QualifiedSpec p := hall p (List.mem_cons_self p ps)
            have hp2 : pageQualified p = true := (pageQualified_iff p).mpr hp
            simp [hp2] at hb
      have hstep : searchLoopStep count st i b = { st with lastScrapped := some b } := by
        simp [searchLoopStep, hb, hgate]
      simp only [runSearchLoop, hstep, h1, h2, h3, Option.isSome_none,
        Bool.false_eq_true, if_false]
      rw [ih { lastScrapped := some b, timerArmedAt := none,
               timerActive := st.timerActive, armEvents := [], returned := none }
          (i + 1) rfl rfl rfl]
      have hfq : firstQualifiedIdx (b :: rest) =
          if b.any pageQualified then some 0
          else (firstQualifiedIdx rest).map (· + 1) := rfl
      cases hr : firstQualifiedIdx rest with
      | none => simp [hfq, hb, hr]
      | some j =>
        have hrw : i + 1 + j = i + (j + 1) := by omega
        simp [hfq, hb, hr, hrw]

/-- C8: over a whole run of the search loop, the early-return timer is armed
at most once; any arming happens exactly at the first emission in which some
slot is qualified (so the timer, armed only then and firing only later, never
fires before at least one slot has been qualified); and its duration is the
provided timeout (in milliseconds, `t` seconds becoming `t * 1000`) when one
was provided, else 15,000 ms. -/
theorem earlyReturnTimer_policy (count : Nat) (batches : List (List FormattedPage))
    (hcount : 1 ≤ count) :
    ((runSearchLoop count initialLoopState 0 batches).armEvents.length ≤ 1) ∧
    (∀ k ∈ (runSearchLoop count initialLoopState 0 batches).armEvents,
      ∃ b, batches[k]? = some b ∧ b.any pageQualified = true ∧
        ∀ j b2, j < k → batches[j]? = some b2 → b2.any pageQualified = false) ∧
    (∀ t, 0 < t → earlyReturnTimerDurationMs (some t) = t * 1000) ∧
    earlyReturnTimerDurationMs none = reasonableDelayMs ∧
    reasonableDelayMs = 15000 := by
  have hrun := runSearchLoop_armEvents_eq count hcount batches initialLoopState 0
    rfl rfl rfl
  refine ⟨?_, ?_, ?_, rfl, rfl⟩
  · rw [hrun]
    cases firstQualifiedIdx batches <;> simp
  · rw [hrun]
    cases hf : firstQualifiedIdx batches with
    | none => simp
    | some j =>
      intro k hk
      have hkj : k = j := by simpa using hk
      subst hkj
      exact firstQualifiedIdx_spec batches k hf
  · intro t ht
    have hnz : ¬ (t * 1000 = 0) := by omega
    simp [earlyReturnTimerDurationMs, hnz]

/-- Witness for C8: an unqualified emission followed by a qualified one — the
timer is armed exactly once, at emission index 1. -/
theorem earlyReturnTimer_policy_witness :
    ((runSearchLoop 1 initialLoopState 0 [[samplePageU], [samplePageQ]]).armEvents.length
      ≤ 1) ∧
    (∀ k ∈ (runSearchLoop 1 initialLoopState 0
        [[samplePageU], [samplePageQ]]).armEvents,
      ∃ b, [[samplePageU], [samplePageQ]][k]? = some b ∧
        b.any pageQualified = true ∧
        ∀ j b2, j < k → [[samplePageU], [samplePageQ]][j]? = some b2 →
          b2.any pageQualified = false) ∧
    (∀ t, 0 < t → earlyReturnTimerDurationMs (some t) = t * 1000) ∧
    earlyReturnTimerDurationMs none = reasonableDelayMs ∧
    reasonableDelayMs = 15000 :=
  earlyReturnTimer_policy 1 [[samplePageU], [samplePageQ]] (by omega)

/-- Shape of the markdown tail: one main run over the chosen target (after the
comparison runs, if any), optionally followed by one raw-HTML fallback run;
the comparison flag and the chosen source are passed through. -/
theorem mdPathFinish_shape (td : TdRun → String) (noRules : Bool) (target : TdDoc)
    (runs0 : List TdRun) (snap : PageSnapshot) (compared : Bool) :
    ((mdPathFinish td noRules target runs0 snap compared).runs =
        runs0 ++ [{ noRules := noRules, withPlugins := true, doc := target }] ∨
     (mdPathFinish td noRules target runs0 snap compared).runs =
        runs0 ++ [{ noRules := noRules, withPlugins := true, doc := target },
                  { noRules := noRules, withPlugins := true, doc := TdDoc.rawHtml }]) ∧
    (mdPathFinish td noRules target runs0 snap compared).comparedParsed = compared ∧
    (mdPathFinish td noRules target runs0 snap compared).usedParsed =
      decide (target = TdDoc.parsedElem) := by
  by_cases hnf : mdNeedsRawFallback
      (jsTrim (td { noRules := noRules, withPlugins := true, doc := target })) target = true
  · refine ⟨Or.inr ?_, rfl, rfl⟩
    simp [mdPathFinish, hnf]
  · refine ⟨Or.inl ?_, rfl, rfl⟩
    simp [mdPathFinish, hnf]

/-- A rewriter model distinguishing the three conversion sources. -/
def tdSample : TdRun → String := fun r =>
  match r.doc with
  | .htmlElem => "full document markdown"
  | .parsedElem => "parsed subtree markdown"
  | .rawHtml => "raw html markdown"

/-- A snapshot with readability-parsed content present and no degradation. -/
def sampleSnapshotParsed : PageSnapshot :=
  { href := "http://a.example/", html := "<html><body><p>x</p></body></html>",
    text := "x", title := "A", parsedContent := some "<p>x</p>" }

/-- Counterexample to C1 as stated: in markdown mode, with `parsed.content`
present, the snapshot not degraded, and the 0.3-ratio satisfied by the
rewriter outputs, `formatSnapshot` still performs no par1/par2 comparison —
the guard is `mode !== 'markdown'` — and makes a single pass over the full
document, whose output (not the noRules run over the parsed subtree) becomes
the content. -/
theorem markdownPath_single_run_counterexample :
    optTruthy sampleSnapshotParsed.parsedContent = true ∧
    3 * (tdSample { noRules := false, withPlugins := false, doc := TdDoc.htmlElem }).length ≤
      10 * (tdSample { noRules := false, withPlugins := false, doc := TdDoc.parsedElem }).length ∧
    (markdownPathContent tdSample "markdown" sampleSnapshotParsed).comparedParsed = false ∧
    (markdownPathContent tdSample "markdown" sampleSnapshotParsed).runs =
      [{ noRules := false, withPlugins := true, doc := TdDoc.htmlElem }] ∧
    (markdownPathContent tdSample "markdown" sampleSnapshotParsed).content ≠
      tdSample { noRules := true, withPlugins := true, doc := TdDoc.parsedElem } := by
  refine ⟨rfl, by decide, rfl, rfl, by decide⟩

/-- C1 amended: the par1/par2 readability comparison of `formatSnapshot` runs
exactly when the mode is NOT `markdown` and `parsed.content` is present (the
source guard is `mode !== 'markdown' && snapshot.parsed?.content`); in
markdown mode the rewriter makes a single primary pass (noRules unset, over
the full document, optionally retried over the raw HTML) and the parsed
subtree is never converted; when the comparison does run and
`|par2| ≥ 0.3 * |par1|`, the re-run is a noRules pass over the parsed
subtree, which becomes the conversion source. -/
theorem markdownPath_comparison_policy (td : TdRun → String) (mode : String)
    (snap : PageSnapshot) (h1 : snap.maxElemDepth ≤ 256) (h2 : snap.elemCount ≤ 70000) :
    ((markdownPathContent td mode snap).comparedParsed = true ↔
      (mode ≠ "markdown" ∧ optTruthy snap.parsedContent = true)) ∧
    (mode = "markdown" →
      (markdownPathContent td mode snap).runs.head? =
        some { noRules := false, withPlugins := true, doc := TdDoc.htmlElem } ∧
      ∀ r ∈ (markdownPathContent td mode snap).runs,
        r.noRules = false ∧ r.doc ≠ TdDoc.parsedElem) ∧
    ((mode ≠ "markdown" ∧ optTruthy snap.parsedContent = true) →
      (markdownPathContent td mode snap).runs.take 2 =
        [{ noRules := false, withPlugins := false, doc := TdDoc.htmlElem },
         { noRules := false, withPlugins := false, doc := TdDoc.parsedElem }] ∧
      (3 * (td { noRules := false, withPlugins := false, doc := TdDoc.htmlElem }).length ≤
          10 * (td { noRules := false, withPlugins := false, doc := TdDoc.parsedElem }).length →
        (markdownPathContent td mode snap).runs[2]? =
          some { noRules := true, withPlugins := true, doc := TdDoc.parsedElem } ∧
        (markdownPathContent td mode snap).usedParsed = true)) := by
  have hstep : markdownPathContent td mode snap =
      (if mode ≠ "markdown" ∧ optTruthy snap.parsedContent then
        (if 3 * (td { noRules := false, withPlugins := false, doc := TdDoc.htmlElem }).length ≤
            10 * (td { noRules := false, withPlugins := false, doc := TdDoc.parsedElem }).length then
          mdPathFinish td true TdDoc.parsedElem
            [{ noRules := false, withPlugins := false, doc := TdDoc.htmlElem },
             { noRules := false, withPlugins := false, doc := TdDoc.parsedElem }] snap true
        else
          mdPathFinish td false TdDoc.htmlElem
            [{ noRules := false, withPlugins := false, doc := TdDoc.htmlElem },
             { noRules := false, withPlugins := false, doc := TdDoc.parsedElem }] snap true)
      else mdPathFinish td false TdDoc.htmlElem [] snap false) := by
    unfold markdownPathContent
    rw [if_neg (by simp; omega)]
  by_cases hcmp : (mode ≠ "markdown" ∧ optTruthy snap.parsedContent = true)
  · rw [hstep, if_pos hcmp]
    by_cases hratio :
        3 * (td { noRules := false, withPlugins := false, doc := TdDoc.htmlElem }).length ≤
          10 * (td { noRules := false, withPlugins := false, doc := TdDoc.parsedElem }).length
    · rw [if_pos hratio]
      obtain ⟨hshape, hcomp, hused⟩ := mdPathFinish_shape td true TdDoc.parsedElem
        [{ noRules := false, withPlugins := false, doc := TdDoc.htmlElem },
         { noRules := false, withPlugins := false, doc := TdDoc.parsedElem }] snap true
      refine ⟨by rw [hcomp]; simpa using hcmp, ?_, ?_⟩
      · intro hmode; exact absurd hmode hcmp.1
      · intro _
        rcases hshape with hr | hr
        · exact ⟨by rw [hr]; rfl, fun _ => ⟨by rw [hr]; rfl, by rw [hused]; simp⟩⟩
        · exact ⟨by rw [hr]; rfl, fun _ => ⟨by rw [hr]; rfl, by rw [hused]; simp⟩⟩
    · rw [if_neg hratio]
      obtain ⟨hshape, hcomp, hused⟩ := mdPathFinish_shape td false TdDoc.htmlElem
        [{ noRules := false, withPlugins := false, doc := TdDoc.htmlElem },
         { noRules := false, withPlugins := false, doc := TdDoc.parsedElem }] snap true
      refine ⟨by rw [hcomp]; simpa using hcmp, ?_, ?_⟩
      · intro hmode; exact absurd hmode hcmp.1
      · intro _
        rcases hshape with hr | hr
        · exact ⟨by rw [hr]; rfl, fun hrt => absurd hrt hratio⟩
        · exact ⟨by rw [hr]; rfl, fun hrt => absurd hrt hratio⟩
  · rw [hstep, if_neg hcmp]
    obtain ⟨hshape, hcomp, hused⟩ := mdPathFinish_shape td false TdDoc.htmlElem [] snap false
    refine ⟨by rw [hcomp]; simp [hcmp], ?_, fun hc => absurd hc hcmp⟩
    intro _
    rcases hshape with hr | hr
    · rw [hr]
      exact ⟨rfl, by intro r hrr; simp at hrr; subst hrr; exact ⟨rfl, by simp⟩⟩
    · rw [hr]
      refine ⟨rfl, ?_⟩
      intro r hrr
      simp at hrr
      rcases hrr with hrr | hrr <;> subst hrr <;> exact ⟨rfl, by simp⟩

/-- Witness for C1's amended theorem: in the non-markdown mode the comparison
is performed on a concrete snapshot with parsed content. -/
theorem markdownPath_comparison_policy_witness :
    (markdownPathContent tdSample "default" sampleSnapshotParsed).comparedParsed = true :=
  ((markdownPath_comparison_policy tdSample "default" sampleSnapshotParsed
      (by decide) (by decide)).1).mpr ⟨by decide, rfl⟩

/-- Appending a blank line does not change a string up to trailing
whitespace. -/
theorem trimRightChars_append_nl (s : List Char) :
    trimRightChars (s ++ ['\n', '\n']) = trimRightChars s := by
  unfold trimRightChars trimLeftChars
  rw [List.reverse_append]
  simp [List.dropWhile_cons, isWsChar]

/-- A concrete already-rendered markdown string. -/
def sampleMarkdownString : String := "Hello **world**"

/-- C9: the Markdown rewriter is idempotent on text — running it on an
already-rendered markdown string (canonical form: trimmed, no runs of three
or more newlines) enclosed in a `<p>` element yields the same string up to
trailing whitespace. -/
theorem markdown_idempotent_on_text (s : List Char) (h : RenderedMarkdown s) :
    trimRightChars (toMarkdownOnParagraph s) = trimRightChars s := by
  obtain ⟨htrim, hcoll⟩ := h
  unfold toMarkdownOnParagraph improvedParagraphRule
  rw [htrim]
  by_cases hs : s = []
  · subst hs; rfl
  · have hne : s.isEmpty = false := by simpa [List.isEmpty_iff] using hs
    simp only [hne, Bool.false_eq_true, if_false]
    rw [hcoll]
    exact trimRightChars_append_nl s

/-- Witness for C9 at a concrete markdown string. -/
theorem markdown_idempotent_on_text_witness :
    trimRightChars (toMarkdownOnParagraph sampleMarkdownString.data) =
      trimRightChars sampleMarkdownString.data :=
  markdown_idempotent_on_text sampleMarkdownString.data ⟨by decide, by decide⟩
